import Mathlib

/-!
Verification of the request-pure HTTP request pipeline.

This file shallowly embeds the request/redirect/decoding pipeline of the
repository (src/Request.ts, src/stream.ts, src/utils) in Lean 4 and proves
properties of the resolver, the redirect engine's response handler, the
content-decoding selection and the size guard.

JS strings that are only compared for equality are modelled as Lean `String`;
strings that are percent-encoded byte-wise (query keys/values, URL fragments)
are modelled as lists of Unicode code points (`List Nat`).
-/

set_option maxRecDepth 8000

namespace RequestPure

/-- Code points of a Lean string, used to write concrete inputs. -/
def strCodes (s : String) : List Nat := s.toList.map Char.toNat

/-- ASCII lowercase of a string, the fragment of JS `toLowerCase` the
pipeline relies on (header names and URL schemes are ASCII). -/
def lowerAscii (s : String) : String := String.mk (s.toList.map Char.toLower)

/-- ASCII uppercase of a string, the fragment of JS `toUpperCase` the
pipeline relies on (methods are ASCII). -/
def upperAscii (s : String) : String := String.mk (s.toList.map Char.toUpper)

/-- Concatenation of the images of a list, used instead of library flatMap
to keep every definition self-contained. -/
def concatMap (f : α → List β) : List α → List β
  | [] => []
  | a :: rest => f a ++ concatMap f rest

/- ## utils (src/unnamed/part_003) -/

/-- Embeds `extractContentType` from the repository's utils: a string body is
`text/plain;charset=UTF-8`, anything else infers nothing. -/
inductive Body where
  | str (s : List Nat)
  | buffer (b : List Nat)
  | stream
deriving DecidableEq

def extractContentType : Body → Option String
  | Body.str _ => some "text/plain;charset=UTF-8"
  | _ => none

/-- Embeds `isRedirect` from the repository's utils: a missing code
(`typeof code !== 'number'`) is not a redirect; otherwise exactly the five
redirect status codes are. -/
def isRedirect (code : Option Nat) : Bool :=
  match code with
  | none => false
  | some c => c == 301 || c == 302 || c == 303 || c == 307 || c == 308

/- ## Header store -/

/-- Modelled from the spec: the Header Store (§4.1, `src/Headers.ts` is not in
the provided sources). An insertion-ordered list of (name, value) pairs with
case-insensitive lookup; `get` returns the first value or none, `set`
replaces all values for a name, `delete` removes all values. -/
structure Headers where
  entries : List (String × String)
deriving DecidableEq

def Headers.get (h : Headers) (name : String) : Option String :=
  (h.entries.find? (fun p => lowerAscii p.1 == lowerAscii name)).map (fun p => p.2)

def Headers.delete (h : Headers) (name : String) : Headers :=
  ⟨h.entries.filter (fun p => lowerAscii p.1 != lowerAscii name)⟩

def Headers.set (h : Headers) (name value : String) : Headers :=
  ⟨(h.delete name).entries ++ [(name, value)]⟩

def Headers.append (h : Headers) (name value : String) : Headers :=
  ⟨h.entries ++ [(name, value)]⟩

def Headers.has (h : Headers) (name : String) : Bool :=
  (h.get name).isSome

def Headers.ofList (l : List (String × String)) : Headers := ⟨l⟩

/- ## Percent encoders (platform functions used by getRequestOptions) -/

/-- UTF-8 bytes of a Unicode code point. -/
def utf8Bytes (c : Nat) : List Nat :=
  if c < 0x80 then [c]
  else if c < 0x800 then [0xC0 + c / 64, 0x80 + c % 64]
  else if c < 0x10000 then [0xE0 + c / 4096, 0x80 + (c / 64) % 64, 0x80 + c % 64]
  else [0xF0 + c / 262144, 0x80 + (c / 4096) % 64, 0x80 + (c / 64) % 64, 0x80 + c % 64]

/-- Uppercase hex digit of a nibble, as a code point. -/
def hexDigit (n : Nat) : Nat := if n < 10 then 48 + n else 55 + n

/-- `%HH` escape of one byte, as code points. -/
def pctEncodeByte (b : Nat) : List Nat := [37, hexDigit (b / 16), hexDigit (b % 16)]

/-- Characters `encodeURIComponent` leaves unescaped:
`A-Z a-z 0-9 - _ . ! ~ * ' ( )`. -/
def uriUnreserved (c : Nat) : Bool :=
  (65 ≤ c && c ≤ 90) || (97 ≤ c && c ≤ 122) || (48 ≤ c && c ≤ 57) ||
    c == 45 || c == 95 || c == 46 || c == 33 || c == 126 || c == 42 ||
    c == 39 || c == 40 || c == 41

/-- Modelled from the spec: the platform `encodeURIComponent` used by the
resolver's query merge — percent-encodes the UTF-8 bytes of every character
outside its unreserved set. -/
def encodeURIComponent (s : List Nat) : List Nat :=
  concatMap (fun c => if uriUnreserved c then [c] else concatMap pctEncodeByte (utf8Bytes c)) s

/-- Bytes the `application/x-www-form-urlencoded` serializer leaves unescaped:
`A-Z a-z 0-9 * - . _`. -/
def formSafe (b : Nat) : Bool :=
  (65 ≤ b && b ≤ 90) || (97 ≤ b && b ≤ 122) || (48 ≤ b && b ≤ 57) ||
    b == 42 || b == 45 || b == 46 || b == 95

/-- Modelled from the spec: the platform URLSearchParams serializer
(`application/x-www-form-urlencoded`): space becomes `+`, safe bytes stay,
every other byte is percent-encoded. -/
def formEncode (s : List Nat) : List Nat :=
  concatMap (fun c =>
    concatMap (fun b => if b == 32 then [43] else if formSafe b then [b] else pctEncodeByte b)
      (utf8Bytes c)) s

/- ## URL model (platform `new URL`, used by the resolver and redirect engine) -/

/-- Split a char list at the first occurrence of `sep`; none when absent. -/
def splitFirst (sep : Char) : List Char → Option (List Char × List Char)
  | [] => none
  | c :: rest =>
    if c == sep then some ([], rest)
    else match splitFirst sep rest with
      | none => none
      | some (a, b) => some (c :: a, b)

/-- Take characters until one of `stops` is met; returns (taken, remainder). -/
def takeUntil (stops : List Char) : List Char → List Char × List Char
  | [] => ([], [])
  | c :: rest =>
    if stops.contains c then ([], c :: rest)
    else
      let p := takeUntil stops rest
      (c :: p.1, p.2)

/-- Split a char list on every occurrence of `sep`. -/
def splitOnChar (sep : Char) : List Char → List (List Char)
  | [] => [[]]
  | c :: rest =>
    let r := splitOnChar sep rest
    if c == sep then [] :: r
    else match r with
      | [] => [[c]]
      | h :: t => (c :: h) :: t

/-- Hex digit value of a character, if any. -/
def hexVal (c : Char) : Option Nat :=
  let n := c.toNat
  if 48 ≤ n && n ≤ 57 then some (n - 48)
  else if 65 ≤ n && n ≤ 70 then some (n - 55)
  else if 97 ≤ n && n ≤ 102 then some (n - 87)
  else none

/-- Percent-and-plus decoding of a query component (ASCII fragment of the
urlencoded parser): `+` is space, valid `%HH` decodes, stray `%` stays. -/
def percentDecode : List Char → List Nat
  | [] => []
  | '%' :: a :: b :: rest =>
    match hexVal a, hexVal b with
    | some x, some y => (16 * x + y) :: percentDecode rest
    | _, _ => 37 :: percentDecode (a :: b :: rest)
  | '+' :: rest => 32 :: percentDecode rest
  | c :: rest => c.toNat :: percentDecode rest

/-- Parse a query string into decoded (key, value) pairs. -/
def parseQuery (qs : List Char) : List (List Nat × List Nat) :=
  (splitOnChar '&' qs).filterMap fun piece =>
    if piece.isEmpty then none
    else some (match splitFirst '=' piece with
      | none => (percentDecode piece, [])
      | some (k, v) => (percentDecode k, percentDecode v))

/-- Modelled from the spec: the fields of the platform `URL` object the
pipeline reads (§3 ParsedURL): scheme (with trailing colon), host, port,
path and the decoded search parameter list. -/
structure ParsedURL where
  protocol : String
  hostname : String
  port : String
  pathname : String
  searchParams : List (List Nat × List Nat)
deriving DecidableEq

/-- Modelled from the spec: the ASCII fragment of the platform WHATWG URL
parser (`new URL(input)`), sufficient for http(s) URLs:
`scheme://host[:port][/path][?query]`; a scheme without `//` yields an
empty hostname, no scheme fails (the constructor throws). -/
def parseURL (s : String) : Option ParsedURL :=
  match splitFirst ':' s.toList with
  | none => none
  | some (schemeCs, rest) =>
    if schemeCs.isEmpty then none
    else
      let protocol := String.mk (schemeCs.map Char.toLower) ++ ":"
      match rest with
      | '/' :: '/' :: rest2 =>
        let p1 := takeUntil ['/', '?', '#'] rest2
        let hostPort := match splitFirst ':' p1.1 with
          | none => (p1.1, ([] : List Char))
          | some hp => hp
        let p2 := takeUntil ['?', '#'] p1.2
        let queryCs := match p2.2 with
          | '?' :: qs => (takeUntil ['#'] qs).1
          | _ => []
        some { protocol := protocol,
               hostname := String.mk (hostPort.1.map Char.toLower),
               port := String.mk hostPort.2,
               pathname := if p2.1.isEmpty then "/" else String.mk p2.1,
               searchParams := parseQuery queryCs }
      | _ => some { protocol := protocol, hostname := "", port := "",
                    pathname := String.mk rest, searchParams := [] }

/-- Join code-point lists with a separator code point. -/
def joinWith (sep : Nat) : List (List Nat) → List Nat
  | [] => []
  | x :: rest =>
    match rest with
    | [] => x
    | _ :: _ => x ++ sep :: joinWith sep rest

/-- The serialized `search` string of a URL: empty, or `?` followed by the
urlencoded-serialized parameters. -/
def ParsedURL.search (u : ParsedURL) : List Nat :=
  if u.searchParams.isEmpty then []
  else 63 :: joinWith 38 (u.searchParams.map fun p => formEncode p.1 ++ 61 :: formEncode p.2)

/-- `URLSearchParams.set`: replace the first pair with this key and drop any
later duplicates; append when the key is absent. -/
def setParam : List (List Nat × List Nat) → List Nat → List Nat → List (List Nat × List Nat)
  | [], k, v => [(k, v)]
  | (k', v') :: rest, k, v =>
    if k' == k then (k, v) :: rest.filter (fun p => p.1 != k)
    else (k', v') :: setParam rest k v

/-- Keep a path's characters up to and including the last slash. -/
def dropAfterLastSlash (l : List Char) : List Char :=
  (l.reverse.dropWhile (fun c => c != '/')).reverse

/-- Modelled from the spec: relative/absolute `Location` resolution performed
by the platform URL constructor (`new URL(location, base)`, §4.3): an
absolute location replaces the base; a root-relative one replaces path and
query; any other is resolved against the base path's directory. -/
def resolveURL (location : String) (base : ParsedURL) : ParsedURL :=
  match parseURL location with
  | some u => u
  | none =>
    let cs := location.toList
    let p := takeUntil ['?', '#'] cs
    let queryCs := match p.2 with
      | '?' :: qs => (takeUntil ['#'] qs).1
      | _ => []
    match cs with
    | '/' :: _ => { base with pathname := String.mk p.1, searchParams := parseQuery queryCs }
    | _ =>
      let newPath := String.mk (dropAfterLastSlash base.pathname.toList ++ p.1)
      { base with pathname := newPath, searchParams := parseQuery queryCs }

/- ## Request resolver (getRequestOptions, src/Request.ts lines 232-291) -/

/-- The caller-supplied constructor options; absent fields take the defaults.
`none` for `body` models both an absent body and an explicit null. -/
structure ConstructorOptions where
  requestURL : String
  method : Option String := none
  body : Option Body := none
  headers : Option (List (String × String)) := none
  query : Option (List (List Nat × List Nat)) := none
  followRedirect : Option Bool := none
  maxRedirectCount : Option Nat := none
  timeout : Option Nat := none
  size : Option Nat := none
deriving DecidableEq

/-- The fully resolved request options handed to the redirect engine
(the source's `RequestOptions`). -/
structure RequestOptions where
  method : String
  body : Option Body
  headers : Headers
  followRedirect : Bool
  maxRedirectCount : Nat
  requestURL : String
  parsedURL : ParsedURL
  timeout : Nat
  size : Nat
deriving DecidableEq

/-- The synchronous resolution failures (all thrown as `TypeError` in the
source; the spec's `ValidationError` taxonomy). -/
inductive ResolveError where
  | bodyWithBodylessMethod
  | notAbsoluteURL
  | unsupportedProtocol
deriving DecidableEq

/-- JS truthiness of the body value (`if (body && ...)`): null/absent and the
empty string are falsy, everything else truthy. -/
def jsTruthyBody : Option Body → Bool
  | none => false
  | some (Body.str s) => !s.isEmpty
  | some _ => true

/-- Embeds `getRequestOptions`: merge over defaults (method GET, follow
redirects, 20 max hops, no timeout, no size limit — `src/constant` is not in
the provided sources, values modelled from spec §4.2), uppercase the method,
reject a body on GET/HEAD, parse and validate the URL, merge the query via
`searchParams.set(encodeURIComponent(k), encodeURIComponent(v))`, then build
the canonical header set. Pure: no I/O can occur here. -/
def getRequestOptions (c : ConstructorOptions) : Except ResolveError RequestOptions :=
  let method := upperAscii (c.method.getD "GET")
  if c.body.isSome && (method == "GET" || method == "HEAD") then
    Except.error ResolveError.bodyWithBodylessMethod
  else
    match parseURL c.requestURL with
    | none => Except.error ResolveError.notAbsoluteURL
    | some parsed =>
      if !(!parsed.protocol.isEmpty && !parsed.hostname.isEmpty) then
        Except.error ResolveError.notAbsoluteURL
      else if !(parsed.protocol == "http:" || parsed.protocol == "https:") then
        Except.error ResolveError.unsupportedProtocol
      else
        let parsed := match c.query with
          | none => parsed
          | some q =>
            let merged := q.foldl
              (fun ps kv => setParam ps (encodeURIComponent kv.1) (encodeURIComponent kv.2))
              parsed.searchParams
            { parsed with searchParams := merged }
        let headers := Headers.ofList (c.headers.getD [])
        let headers := headers.delete "content-length"
        let headers := headers.set "accept-encoding" "gzip,deflate,br"
        let headers := if headers.has "accept" then headers else headers.set "accept" "*/*"
        let headers := if headers.has "connection" then headers else headers.set "connection" "close"
        let headers :=
          if jsTruthyBody c.body && !headers.has "content-type" then
            match c.body.bind extractContentType with
            | some ct => headers.append "content-type" ct
            | none => headers
          else headers
        Except.ok { method := method, body := c.body, headers := headers,
                    followRedirect := c.followRedirect.getD true,
                    maxRedirectCount := c.maxRedirectCount.getD 20,
                    requestURL := c.requestURL, parsedURL := parsed,
                    timeout := c.timeout.getD 0, size := c.size.getD 0 }

/- ## Redirect engine (RequestClient.send response handler, src/Request.ts lines 112-218) -/

/-- The transport's incoming response as the handler destructures it:
`const { statusCode = 200, headers } = res`. -/
structure IncomingMessage where
  statusCode : Option Nat
  headers : Headers
deriving DecidableEq

/-- The two terminal redirect errors the handler can raise (spec
`RedirectLimitError` / `RedirectMissingLocationError`), each naming the
original request URL as the source messages do. -/
inductive PipelineError where
  | redirectLimit (requestURL : String)
  | missingLocation (requestURL : String)
deriving DecidableEq

/-- A re-invocation of `send()` for a further hop: the options it will use,
the value of `redirectCount` after `this.redirectCount += 1`, and the raw
`Location` input given to the URL constructor. -/
structure HopInfo where
  options : RequestOptions
  hopCount : Nat
  locationInput : String
deriving DecidableEq

/-- The observable actions of one invocation of the response handler, in
program order: promise rejections, hop re-invocations of `send()`, and the
resolution of a `Response` carrying a status code and headers. -/
inductive SendEvent where
  | rejected (e : PipelineError)
  | hopIssued (hop : HopInfo)
  | resolvedResponse (statusCode : Nat) (headers : Headers)
deriving DecidableEq

def SendEvent.isReject : SendEvent → Bool
  | SendEvent.rejected _ => true
  | _ => false

def SendEvent.isHop : SendEvent → Bool
  | SendEvent.hopIssued _ => true
  | _ => false

/-- The hops contained in an event trace. -/
def hopsOf (tr : List SendEvent) : List HopInfo :=
  tr.filterMap fun e => match e with
    | SendEvent.hopIssued h => some h
    | _ => none

/-- JS `String(x)` on a nullable string: null prints as `"null"`. -/
def jsString : Option String → String
  | none => "null"
  | some s => s

/-- JS falsiness of a nullable string (`!headers.get(...)`): null and the
empty string are falsy. -/
def jsFalsyStr : Option String → Bool
  | none => true
  | some s => s == ""

/-- Embeds the redirect rewrite (src/Request.ts lines 127-135): on a 303, or
on a 301/302 whose current method is POST, the method becomes GET, the body
is dropped and the content-length header is removed; otherwise the options
are untouched. (`src/enum` is not in the provided sources; its METHOD_MAP
and HEADER_MAP string constants are modelled from the spec.) -/
def rewriteForRedirect (statusCode : Nat) (o : RequestOptions) : RequestOptions :=
  if statusCode == 303 || ((statusCode == 301 || statusCode == 302) && o.method == "POST") then
    { o with method := "GET", body := none, headers := o.headers.delete "content-length" }
  else o

/-- Embeds the `response` event handler of `RequestClient.send` as the list of
observable actions it performs, in source order. Mirrors the control flow
faithfully: the redirect branch has no early returns, so after a rejection
the handler still rewrites the options, increments the hop counter, issues
the next hop, and even falls through to resolve a response. -/
def handleResponse (o : RequestOptions) (redirectCount : Nat) (res : IncomingMessage) :
    List SendEvent :=
  let statusCode := res.statusCode.getD 200
  let headers := res.headers
  let tail := [SendEvent.resolvedResponse statusCode headers]
  if isRedirect (some statusCode) && o.followRedirect then
    let limitEvents :=
      if o.maxRedirectCount ≠ 0 ∧ o.maxRedirectCount ≤ redirectCount then
        [SendEvent.rejected (PipelineError.redirectLimit o.requestURL)]
      else []
    let locEvents :=
      if jsFalsyStr (headers.get "location") then
        [SendEvent.rejected (PipelineError.missingLocation o.requestURL)]
      else []
    let o2 := rewriteForRedirect statusCode o
    let locInput := jsString (headers.get "location")
    let o3 := { o2 with parsedURL := resolveURL locInput o.parsedURL }
    limitEvents ++ locEvents ++ [SendEvent.hopIssued ⟨o3, redirectCount + 1, locInput⟩] ++ tail
  else
    tail

/- ## Decoding pipeline (src/Request.ts lines 164-217) -/

/-- The tagged transform variants the pipeline can wire in front of the
response stream (the spec's §4.4 decision table). -/
inductive Transform where
  | identity
  | brotli
  | gunzip
  | inflate
  | inflateRaw
deriving DecidableEq

/-- Embeds the content-decoding selection: applicable only when the method is
not HEAD, a content-encoding header is present, and the status is neither
204 nor 304; then the encoding token dispatches as the source's switch does,
with the deflate family sniffing the low nibble of the stream's first byte
(`(chunk[0] & 0x0f) === 0x08`). (`src/enum`'s COMPRESSION_TYPE constants are
modelled from the spec's decision table.) -/
def selectTransform (method : String) (statusCode : Nat) (headers : Headers)
    (firstByte : Nat) : Transform :=
  let codings := headers.get "content-encoding"
  if method != "HEAD" && codings.isSome && statusCode != 204 && statusCode != 304 then
    if codings == some "br" then Transform.brotli
    else if codings == some "gzip" || codings == some "x-gzip" then Transform.gunzip
    else if codings == some "deflate" || codings == some "x-deflate" then
      if firstByte &&& 0x0f == 0x08 then Transform.inflate else Transform.inflateRaw
    else Transform.identity
  else Transform.identity

/-- The encoding tokens the pipeline recognizes. -/
def recognizedCoding (c : String) : Bool :=
  c == "br" || c == "gzip" || c == "x-gzip" || c == "deflate" || c == "x-deflate"

/- ## Size guard (spec §4.5) -/

/-- Total byte count of a chunk list. -/
def totalLen : List (List Nat) → Nat
  | [] => 0
  | c :: rest => c.length + totalLen rest

/-- Modelled from the spec: the streaming size guard (§4.5; `src/Response.ts`
is not in the provided sources, and the sibling implementation in the
repository checks a fixed ceiling after appending each chunk). Each arriving
chunk is delivered and counted; as soon as a positive ceiling is exceeded
the stream is destroyed and the error raised, so no later chunk is
delivered. Returns the delivered chunks and whether the size error fired. -/
def guardRun (size : Nat) (total : Nat) : List (List Nat) → List (List Nat) × Bool
  | [] => ([], false)
  | c :: rest =>
    if 0 < size ∧ size < total + c.length then ([c], true)
    else
      let r := guardRun size (total + c.length) rest
      (c :: r.1, r.2)

/- ## Concrete fixtures -/

/-- A plain resolved options value used by the concrete checks below. -/
def baseOptions : RequestOptions :=
  { method := "GET", body := none, headers := ⟨[]⟩, followRedirect := true,
    maxRedirectCount := 20, requestURL := "http://example.com/start",
    parsedURL := ⟨"http:", "example.com", "", "/start", []⟩, timeout := 0, size := 0 }

/-- A 301 response carrying an absolute Location header. -/
def redirectRes : IncomingMessage :=
  ⟨some 301, ⟨[("location", "http://example.com/next")]⟩⟩

/-- Options with the redirect limit set to zero hops. -/
def c1Options : RequestOptions := { baseOptions with maxRedirectCount := 0 }

/-- Options with a redirect limit of one hop. -/
def c2Options : RequestOptions := { baseOptions with maxRedirectCount := 1 }

/-- A PUT request with a body and a content-length header. -/
def c3Options : RequestOptions :=
  { method := "PUT", body := some (Body.str (strCodes "payload")),
    headers := ⟨[("content-length", "7")]⟩, followRedirect := true,
    maxRedirectCount := 20, requestURL := "http://example.com/start",
    parsedURL := ⟨"http:", "example.com", "", "/start", []⟩, timeout := 0, size := 0 }

/- ## Claim theorems -/

/-- C1: the claim says a request with maxRedirectCount = 0 and a redirect
response fails immediately with RedirectLimitError and issues no further
hop. Evaluating the handler at exactly that input shows the code does the
opposite: because the guard is `maxRedirectCount && redirectCount >=
maxRedirectCount`, the value 0 is falsy and disables the limit, so no
rejection is raised and the next hop is issued. -/
theorem c1_zero_max_redirect_is_followed_without_error :
    (handleResponse c1Options 0 redirectRes).any SendEvent.isReject = false ∧
    (handleResponse c1Options 0 redirectRes).any SendEvent.isHop = true := by
  decide

/-- C2 counterexample: with the hop bound already reached (one hop done, max
one), the handler reports the RedirectLimitError — and then still initiates
a further hop, so "no subsequent hop is initiated after the error" is false
on the code. -/
theorem c2_error_then_hop_counterexample :
    (handleResponse c2Options 1 redirectRes).head?.map SendEvent.isReject = some true ∧
    (handleResponse c2Options 1 redirectRes).tail.any SendEvent.isHop = true := by
  decide

/-- C2 amended: whenever the redirect branch raises a terminal redirect
error — the hop bound is exceeded, or the Location header is missing (or
empty, which is equally falsy to the code) — the rejection is the first
observable action, naming the hop-bound error when that guard fired and the
missing-location error otherwise, so the promise settles with the error and
no successful response wins; but the handler does not stop: it still
increments the hop counter and re-invokes send() for the rewritten target. -/
theorem c2_error_reported_first_but_hop_still_issued
    (o : RequestOptions) (rc : Nat) (res : IncomingMessage)
    (hf : o.followRedirect = true)
    (hr : isRedirect (some (res.statusCode.getD 200)) = true)
    (herr : (o.maxRedirectCount ≠ 0 ∧ o.maxRedirectCount ≤ rc) ∨
      jsFalsyStr (res.headers.get "location") = true) :
    (handleResponse o rc res).head? = some (SendEvent.rejected
      (if o.maxRedirectCount ≠ 0 ∧ o.maxRedirectCount ≤ rc then
        PipelineError.redirectLimit o.requestURL
      else PipelineError.missingLocation o.requestURL)) ∧
    (handleResponse o rc res).any
      (fun e => match e with
        | SendEvent.hopIssued h => h.hopCount == rc + 1
        | _ => false) = true := by
  by_cases hlim : o.maxRedirectCount ≠ 0 ∧ o.maxRedirectCount ≤ rc
  · by_cases hl : jsFalsyStr (res.headers.get "location") = true <;>
      simp [handleResponse, hr, hf, hlim.1, hlim.2, hl]
  · have hl : jsFalsyStr (res.headers.get "location") = true := herr.resolve_left hlim
    simp [handleResponse, hr, hf, hlim, hl]

/-- A 301 response that carries no Location header at all. -/
def resNoLocation : IncomingMessage := ⟨some 301, ⟨[]⟩⟩

/-- C2 witness: the amended statement instantiated at a concrete
missing-Location redirect whose hop bound is not yet reached. -/
theorem c2_error_reported_first_witness :
    (handleResponse baseOptions 0 resNoLocation).head? = some (SendEvent.rejected
      (if baseOptions.maxRedirectCount ≠ 0 ∧ baseOptions.maxRedirectCount ≤ 0 then
        PipelineError.redirectLimit baseOptions.requestURL
      else PipelineError.missingLocation baseOptions.requestURL)) :=
  (c2_error_reported_first_but_hop_still_issued baseOptions 0 resNoLocation rfl (by decide)
    (Or.inr (by decide))).1

/-- C3 counterexample: a 301 response to a PUT request — a write method — is
not rewritten by the code: method, body and content-length survive, so the
claim's "301/302 with any write method rewrites to GET and drops the body"
is false; only POST is rewritten. -/
theorem c3_put_not_rewritten_counterexample :
    (rewriteForRedirect 301 c3Options).method = "PUT" ∧
    (rewriteForRedirect 301 c3Options).body = some (Body.str (strCodes "payload")) ∧
    (rewriteForRedirect 301 c3Options).headers.get "content-length" = some "7" ∧
    ¬((rewriteForRedirect 301 c3Options).method = "GET" ∧
      (rewriteForRedirect 301 c3Options).body = none) := by
  decide

/-- C3 amended: a 303 with any method rewrites the next hop to GET with no
body and the content-length header removed; a 301/302 with method POST does
the same; a 301/302 with any other method — read or write — leaves the
options untouched. -/
theorem c3_rewrite_rules (s : Nat) (o : RequestOptions) :
    (s = 303 →
      rewriteForRedirect s o =
        { o with method := "GET", body := none,
                 headers := o.headers.delete "content-length" }) ∧
    ((s = 301 ∨ s = 302) → o.method = "POST" →
      rewriteForRedirect s o =
        { o with method := "GET", body := none,
                 headers := o.headers.delete "content-length" }) ∧
    ((s = 301 ∨ s = 302) → o.method ≠ "POST" → rewriteForRedirect s o = o) := by
  refine ⟨fun h => ?_, fun h hp => ?_, fun h hp => ?_⟩
  · subst h; simp [rewriteForRedirect]
  · rcases h with h | h <;> subst h <;> simp [rewriteForRedirect, hp]
  · rcases h with h | h <;> subst h <;> simp [rewriteForRedirect, hp]

/-- C3 witness: the amended preservation rule applied to the concrete PUT
request of the counterexample. -/
theorem c3_rewrite_rules_witness :
    rewriteForRedirect 301 c3Options = c3Options :=
  (c3_rewrite_rules 301 c3Options).2.2 (Or.inl rfl) (by decide)

/-- C4: when decoding applies and the content-encoding is deflate or
x-deflate, the selected transform is determined by sniffing the first byte
of the raw stream: zlib-inflate when its low nibble is 0x08, raw-inflate
otherwise. -/
theorem c4_deflate_sniffs_first_byte
    (m : String) (s : Nat) (hdrs : Headers) (b : Nat)
    (hm : m ≠ "HEAD")
    (hc : hdrs.get "content-encoding" = some "deflate" ∨
      hdrs.get "content-encoding" = some "x-deflate")
    (h204 : s ≠ 204) (h304 : s ≠ 304) :
    selectTransform m s hdrs b =
      if b &&& 0x0f == 0x08 then Transform.inflate else Transform.inflateRaw := by
  rcases hc with hc | hc <;> simp [selectTransform, hc, hm, h204, h304]

/-- C4 witness: a deflate-labelled response whose first byte 0x78 has low
nibble 0x08 selects the zlib-inflate transform. -/
theorem c4_deflate_sniffs_first_byte_witness :
    selectTransform "GET" 200 ⟨[("content-encoding", "deflate")]⟩ 0x78 = Transform.inflate := by
  rw [c4_deflate_sniffs_first_byte "GET" 200 ⟨[("content-encoding", "deflate")]⟩ 0x78
    (by decide) (Or.inl (by decide)) (by decide) (by decide)]
  decide

/-- C6: a decoding transform is wired in iff the method is not HEAD, the
status is neither 204 nor 304, and a recognized content-encoding token is
present; otherwise the stream passes through unmodified (identity). -/
theorem c6_decoding_applied_iff
    (m : String) (s : Nat) (hdrs : Headers) (b : Nat) :
    selectTransform m s hdrs b ≠ Transform.identity ↔
      (m ≠ "HEAD" ∧ s ≠ 204 ∧ s ≠ 304 ∧
        ∃ c, hdrs.get "content-encoding" = some c ∧ recognizedCoding c = true) := by
  cases hget : hdrs.get "content-encoding" with
  | none => simp [selectTransform, hget]
  | some c =>
    by_cases hm : m = "HEAD"
    · simp [selectTransform, hget, hm]
    · by_cases h204 : s = 204
      · simp [selectTransform, hget, hm, h204]
      · by_cases h304 : s = 304
        · simp [selectTransform, hget, hm, h204, h304]
        · by_cases hbr : c = "br"
          · simp [selectTransform, recognizedCoding, hget, hm, h204, h304, hbr]
          · by_cases hgz : c = "gzip"
            · simp [selectTransform, recognizedCoding, hget, hm, h204, h304, hgz]
            · by_cases hxgz : c = "x-gzip"
              · simp [selectTransform, recognizedCoding, hget, hm, h204, h304, hxgz]
              · by_cases hdf : c = "deflate"
                · simp [selectTransform, recognizedCoding, hget, hm, h204, h304, hdf]
                  split <;> simp
                · by_cases hxdf : c = "x-deflate"
                  · simp [selectTransform, recognizedCoding, hget, hm, h204, h304, hxdf]
                    split <;> simp
                  · simp [selectTransform, recognizedCoding, hget, hm, h204, h304,
                      hbr, hgz, hxgz, hdf, hxdf]

/-- C7: a non-null body together with a bodyless method — GET or HEAD after
uppercasing, so in any letter case — makes resolution fail with the
validation error, before anything else; the resolver is pure, so no network
I/O can have happened. -/
theorem c7_body_with_bodyless_method_rejected
    (c : ConstructorOptions)
    (hb : c.body.isSome = true)
    (hm : upperAscii (c.method.getD "GET") = "GET" ∨
      upperAscii (c.method.getD "GET") = "HEAD") :
    getRequestOptions c = Except.error ResolveError.bodyWithBodylessMethod := by
  rcases hm with hm | hm <;> simp [getRequestOptions, hb, hm]

/-- Constructor options with a lowercase get method and a body. -/
def c7Input : ConstructorOptions :=
  { requestURL := "http://x/", method := some "get", body := some (Body.str (strCodes "hi")) }

/-- C7 witness: a lowercase `get` with a string body is rejected. -/
theorem c7_body_with_bodyless_method_rejected_witness :
    getRequestOptions c7Input = Except.error ResolveError.bodyWithBodylessMethod :=
  c7_body_with_bodyless_method_rejected c7Input (by decide) (Or.inl (by decide))

/-- C9: on a 307 or 308 redirect, every hop issued by the handler reuses the
current method, body and header set (hence the same content-length) — the
options can differ only in the target URL. -/
theorem c9_307_308_preserve_method_body_headers
    (o : RequestOptions) (rc : Nat) (res : IncomingMessage)
    (hs : res.statusCode = some 307 ∨ res.statusCode = some 308) :
    (hopsOf (handleResponse o rc res)).all
      (fun h => decide (h.options.method = o.method) && decide (h.options.body = o.body) &&
        decide (h.options.headers = o.headers)) = true := by
  have hsc : res.statusCode.getD 200 = 307 ∨ res.statusCode.getD 200 = 308 := by
    rcases hs with hs | hs <;> simp [hs]
  have hred : isRedirect (some (res.statusCode.getD 200)) = true := by
    rcases hsc with h | h <;> rw [h] <;> decide
  have hrw : rewriteForRedirect (res.statusCode.getD 200) o = o := by
    rcases hsc with h | h <;> rw [h] <;> simp [rewriteForRedirect]
  cases hf : o.followRedirect
  · simp [handleResponse, hf, hopsOf]
  · simp only [handleResponse, hred, hf, Bool.and_self, if_true, hrw]
    split <;> split <;> simp [hopsOf]

/-- A 307 response with a Location header. -/
def res307 : IncomingMessage := ⟨some 307, ⟨[("location", "/next")]⟩⟩

/-- C9 witness: the preservation property at a concrete 307 response. -/
theorem c9_preserve_witness :
    (hopsOf (handleResponse c3Options 0 res307)).all
      (fun h => decide (h.options.method = c3Options.method) &&
        decide (h.options.body = c3Options.body) &&
        decide (h.options.headers = c3Options.headers)) = true :=
  c9_307_308_preserve_method_body_headers c3Options 0 res307 (Or.inl rfl)

/-- C10: a response with no status code is treated as 200: it is never
classified as a redirect (isRedirect of a missing code is false) and the
handler resolves a Response carrying status code 200. -/
theorem c10_missing_status_defaults_to_200
    (o : RequestOptions) (rc : Nat) (res : IncomingMessage)
    (h : res.statusCode = none) :
    isRedirect res.statusCode = false ∧
    handleResponse o rc res = [SendEvent.resolvedResponse 200 res.headers] := by
  constructor
  · rw [h]; rfl
  · simp [handleResponse, h, isRedirect]

/-- A response carrying no status code at all. -/
def resNoStatus : IncomingMessage := ⟨none, ⟨[("x-test", "1")]⟩⟩

/-- C10 witness: the defaulting behaviour at a concrete status-less response. -/
theorem c10_missing_status_witness :
    isRedirect resNoStatus.statusCode = false ∧
    handleResponse baseOptions 0 resNoStatus =
      [SendEvent.resolvedResponse 200 resNoStatus.headers] :=
  c10_missing_status_defaults_to_200 baseOptions 0 resNoStatus rfl

/-- Auxiliary invariant of the size guard, generalized over the running
total: once the running total would exceed the positive ceiling, the guard
errors on the crossing chunk, the delivered chunks are a prefix of the
input, everything before the crossing chunk fits under the ceiling, and the
delivered bytes do exceed it. -/
lemma guardRun_total_spec (size : Nat) (hpos : 0 < size) (chunks : List (List Nat)) :
    ∀ total : Nat, total ≤ size → size < total + totalLen chunks →
      (guardRun size total chunks).2 = true ∧
      (∃ k, (guardRun size total chunks).1 = chunks.take k) ∧
      total + totalLen (guardRun size total chunks).1.dropLast ≤ size ∧
      size < total + totalLen (guardRun size total chunks).1 := by
  induction chunks with
  | nil =>
    intro total hle hex
    simp [totalLen] at hex
    omega
  | cons c rest ih =>
    intro total hle hex
    by_cases h : size < total + c.length
    · rw [guardRun, if_pos ⟨hpos, h⟩]
      refine ⟨rfl, ⟨1, by simp⟩, ?_, ?_⟩ <;> simp [totalLen] <;> omega
    · have h2 : total + c.length ≤ size := Nat.le_of_not_lt h
      have hex2 : size < total + c.length + totalLen rest := by
        simp only [totalLen] at hex; omega
      obtain ⟨he, ⟨k, hk⟩, hdl, hexc⟩ := ih (total + c.length) h2 hex2
      rw [guardRun, if_neg (fun hh => h hh.2)]
      dsimp only
      refine ⟨he, ⟨k + 1, by simp [hk]⟩, ?_, ?_⟩
      · cases hd : (guardRun size (total + c.length) rest).1 with
        | nil => rw [hd] at hexc; simp [totalLen] at hexc; omega
        | cons d0 ds =>
          rw [hd] at hdl
          have hdL : ((c :: d0 :: ds).dropLast) = c :: (d0 :: ds).dropLast := rfl
          rw [hdL]
          simp only [totalLen] at hdl ⊢
          omega
      · simp only [totalLen]
        omega

/-- C8: with a positive size ceiling smaller than the total body length, the
guard raises the size error; the delivered chunks are a prefix of the
stream, all chunks before the crossing one fit under the ceiling (so nothing
is delivered after the error), and the delivered bytes exceed the ceiling. -/
theorem c8_size_guard (size : Nat) (chunks : List (List Nat))
    (hpos : 0 < size) (hex : size < totalLen chunks) :
    (guardRun size 0 chunks).2 = true ∧
    (∃ k, (guardRun size 0 chunks).1 = chunks.take k) ∧
    totalLen (guardRun size 0 chunks).1.dropLast ≤ size ∧
    size < totalLen (guardRun size 0 chunks).1 := by
  have h := guardRun_total_spec size hpos chunks 0 (Nat.zero_le _) (by simpa using hex)
  simpa using h

/-- C8 witness: a ceiling of 3 bytes against a 5-byte body errors after the
crossing chunk. -/
theorem c8_size_guard_witness :
    (guardRun 3 0 [[1, 2], [3, 4], [5]]).2 = true :=
  (c8_size_guard 3 [[1, 2], [3, 4], [5]] (by decide) (by decide)).1

/-- The constructor options of the double-encoding check: a plain URL and a
query whose key and value contain a space. -/
def c5Input : ConstructorOptions :=
  { requestURL := "http://x/", query := some [(strCodes "a b", strCodes "c d")] }

/-- C5: the claim says each merged query key/value is percent-encoded exactly
once. Evaluating the resolver shows the key `a b` and value `c d` reach the
final URL as `a%2520b` / `c%2520d`: the `encodeURIComponent` output is
percent-encoded a second time by the URL serializer, and differs from
either exactly-once encoding of `a b`. -/
theorem c5_query_double_encoded :
    ((getRequestOptions c5Input).toOption.map (fun o => o.parsedURL.search)) =
      some (strCodes "?a%2520b=c%2520d") ∧
    formEncode (strCodes "a b") ≠ strCodes "a%2520b" ∧
    encodeURIComponent (strCodes "a b") ≠ strCodes "a%2520b" := by
  refine ⟨by decide, by decide, by decide⟩

end RequestPure
